import Mathlib

/-!
Shallow embedding of the personal task tracker's reactive store
(`TodoContext`), its streak and stats recomputation, the form-submission
validation (`TaskForm`), and the reminder scheduling (`useNotifications`).

Modelling conventions:
* timestamps are integers counting minutes since an epoch; the calendar
  day of a timestamp `t` is the integer `t.fdiv 1440`, which plays the
  role of both `startOfDay` and the `yyyy-MM-dd` day key (the key format
  is an order isomorphism onto calendar days, so the lexicographic string
  sort of the source is the ascending integer sort here);
* a JS object used as a string-keyed dictionary is modelled by its
  key-to-value mapping `Int → Option Nat`;
* runtime record fields that may be `undefined` are modelled with
  `Option`.
-/

namespace TodoApp

inductive Priority where
  | low
  | medium
  | high
deriving DecidableEq, Repr

structure Task where
  id : String
  title : String
  description : String
  completed : Bool
  priority : Priority
  dueDate : Option Int
  createdAt : Int
  updatedAt : Int
deriving DecidableEq, Repr

structure NotificationSettings where
  enabled : Option Bool
  soundEnabled : Option Bool
  reminderTime : Option Int
deriving DecidableEq, Repr

structure AppSettings where
  notifications : NotificationSettings
  theme : String
  language : String
deriving DecidableEq, Repr

structure UserStats where
  totalTasks : Nat
  completedTasks : Nat
  currentStreak : Nat
  longestStreak : Nat
  dailyCompletion : Int → Option Nat
  weeklyCompletion : Int → Option Nat

structure StreakInfo where
  current : Nat
  longest : Nat
  lastCompletionDate : Option Int
  daysWithAllTasksCompleted : List Int
deriving DecidableEq, Repr

structure TodoState where
  tasks : List Task
  stats : UserStats
  settings : AppSettings
  streak : StreakInfo
  isLoading : Bool

def initialSettings : AppSettings :=
  { notifications := { enabled := some true, soundEnabled := some true, reminderTime := some 15 }
    theme := "system"
    language := "en" }

def emptyObj : Int → Option Nat := fun _ => none

def initialStats : UserStats :=
  { totalTasks := 0
    completedTasks := 0
    currentStreak := 0
    longestStreak := 0
    dailyCompletion := emptyObj
    weeklyCompletion := emptyObj }

def initialStreak : StreakInfo :=
  { current := 0
    longest := 0
    lastCompletionDate := none
    daysWithAllTasksCompleted := [] }

def initialState : TodoState :=
  { tasks := []
    stats := initialStats
    settings := initialSettings
    streak := initialStreak
    isLoading := false }

/-! ## Streak engine (`calculateStreak` in `TodoContext.tsx`) -/

/-- `task.dueDate && isSameDay(task.dueDate, day)` for a calendar day. -/
def dueOn (day : Int) (t : Task) : Bool :=
  match t.dueDate with
  | some d => d.fdiv 1440 == day
  | none => false

/-- `tasks.filter(task => task.dueDate && isSameDay(task.dueDate, today))`. -/
def tasksDueOn (tasks : List Task) (day : Int) : List Task :=
  tasks.filter (dueOn day)

/-- `todayTasks.length > 0 && todayTasks.every(task => task.completed)`. -/
def allDueCompletedOn (tasks : List Task) (day : Int) : Bool :=
  decide (0 < (tasksDueOn tasks day).length) && (tasksDueOn tasks day).all (fun t => t.completed)

/-- The source's conditional insertion/removal of today's key into the
recorded qualifying-day list: push the key when today qualifies and is
absent, filter it out when today no longer qualifies and is present,
otherwise leave the list alone. -/
def updateTodayBucket (days : List Int) (today : Int) (allToday : Bool) : List Int :=
  if allToday && !(days.contains today) then days ++ [today]
  else if !allToday && days.contains today then days.filter (fun d => d != today)
  else days

/-- The source's backward counting loop: it walks the sorted day list from
its last element, comparing the element at distance `k` from the end with
`today - k`, incrementing while they agree and stopping at the first
mismatch.  The list argument here is the sorted list reversed. -/
def streakWalk (today : Int) : List Int → Nat → Nat
  | [], k => k
  | d :: rest, k => if d = today - (k : Int) then streakWalk today rest (k + 1) else k

/-- The current-streak computation: zero on an empty day list; when the
latest recorded day is at most one day before today, run the backward
walk, otherwise zero. -/
def currentStreakOf (today : Int) (sortedDays : List Int) : Nat :=
  match sortedDays.getLast? with
  | none => 0
  | some lastDay => if today - lastDay ≤ 1 then streakWalk today sortedDays.reverse 0 else 0

/-- `calculateStreak` from `TodoContext.tsx`: recompute today's bucket
membership, sort the day list in place (the source's `Array.sort` mutates
`newDaysWithAllCompleted`, so the sorted list is what gets stored), count
the current streak, and take the running maximum for `longest`. -/
def calculateStreak (tasks : List Task) (streak : StreakInfo) (now : Int) : StreakInfo :=
  let today : Int := now.fdiv 1440
  let allToday := allDueCompletedOn tasks today
  let newDays := updateTodayBucket streak.daysWithAllTasksCompleted today allToday
  let sortedDays := newDays.insertionSort (fun a b => a ≤ b)
  let currentStreak := currentStreakOf today sortedDays
  { current := currentStreak
    longest := max streak.longest currentStreak
    lastCompletionDate := if allToday then some today else streak.lastCompletionDate
    daysWithAllTasksCompleted := sortedDays }

/-- Folding a sequence of recomputations (each with its own task list and
clock reading) over a starting streak record. -/
def recomputeSeq (steps : List (List Task × Int)) (s : StreakInfo) : StreakInfo :=
  steps.foldl (fun acc p => calculateStreak p.1 acc p.2) s

/-! ## Streak lemmas -/

lemma allDueCompletedOn_iff (tasks : List Task) (day : Int) :
    allDueCompletedOn tasks day = true ↔
      ((∃ t ∈ tasks, dueOn day t = true) ∧ ∀ t ∈ tasks, dueOn day t = true → t.completed = true) := by
  unfold allDueCompletedOn tasksDueOn
  rw [Bool.and_eq_true, decide_eq_true_iff, List.length_pos, List.all_eq_true]
  constructor
  · rintro ⟨h1, h2⟩
    rcases List.exists_mem_of_ne_nil _ h1 with ⟨t, ht⟩
    rcases List.mem_filter.mp ht with ⟨htm, htd⟩
    refine ⟨⟨t, htm, htd⟩, ?_⟩
    intro u hu hud
    exact h2 u (List.mem_filter.mpr ⟨hu, hud⟩)
  · rintro ⟨⟨t, htm, htd⟩, h2⟩
    constructor
    · intro hnil
      have hmem : t ∈ List.filter (dueOn day) tasks := List.mem_filter.mpr ⟨htm, htd⟩
      rw [hnil] at hmem
      exact absurd hmem (List.not_mem_nil t)
    · intro u hu
      rcases List.mem_filter.mp hu with ⟨hum, hud⟩
      exact h2 u hum hud

lemma mem_updateTodayBucket_self (days : List Int) (today : Int) (b : Bool) :
    today ∈ updateTodayBucket days today b ↔ b = true := by
  unfold updateTodayBucket
  by_cases hc : today ∈ days <;> cases b <;> simp [hc, bne_iff_ne]

lemma mem_updateTodayBucket_ne (days : List Int) (today d : Int) (b : Bool) (hd : d ≠ today) :
    d ∈ updateTodayBucket days today b ↔ d ∈ days := by
  unfold updateTodayBucket
  by_cases hc : today ∈ days <;> cases b <;> simp [hc, hd, bne_iff_ne]

lemma calculateStreak_days (tasks : List Task) (streak : StreakInfo) (now : Int) :
    (calculateStreak tasks streak now).daysWithAllTasksCompleted
      = (updateTodayBucket streak.daysWithAllTasksCompleted (now.fdiv 1440)
          (allDueCompletedOn tasks (now.fdiv 1440))).insertionSort (fun a b => a ≤ b) := rfl

lemma longest_le_calculateStreak (tasks : List Task) (streak : StreakInfo) (now : Int) :
    streak.longest ≤ (calculateStreak tasks streak now).longest :=
  le_max_left _ _

/-! ## Claim theorems about the streak engine -/

def exStreakC1 : StreakInfo :=
  { current := 2
    longest := 2
    lastCompletionDate := some 99
    daysWithAllTasksCompleted := [98, 99] }

def exTaskC1 : Task :=
  { id := "t-today"
    title := "due today"
    description := ""
    completed := true
    priority := Priority.medium
    dueDate := some 144000
    createdAt := 144000
    updatedAt := 144000 }

/-- C1: counter-evaluation for the bug.  With qualifying days `{98, 99}`
(the two days before day 100, consecutive and ending yesterday), no task
due today and `now` inside day 100, the recompute yields a current streak
of 0, not 2: the backward walk starts its comparison at today, which is
not in the set, so the `daysDiff <= 1` allowance for a run ending
yesterday can never produce a positive count.  When a completed task due
today is added, the same recompute yields current 3 and longest 3, as the
spec's second scenario half states. -/
theorem calculateStreak_pending_today_zeroes_streak :
    (calculateStreak [] exStreakC1 144000).current = 0
    ∧ (calculateStreak [exTaskC1] exStreakC1 144000).current = 3
    ∧ (calculateStreak [exTaskC1] exStreakC1 144000).longest = 3 := by
  refine ⟨?_, ?_, ?_⟩ <;> decide

/-- C3: after every recompute the new `longest` equals
`max (previous longest) current`, hence `longest ≥ current`, the previous
`longest` never exceeds the new one, and folding any sequence of
recomputations never decreases `longest`. -/
theorem calculateStreak_longest_max_monotone (tasks : List Task) (streak : StreakInfo) (now : Int) :
    (calculateStreak tasks streak now).longest
        = max streak.longest (calculateStreak tasks streak now).current
    ∧ (calculateStreak tasks streak now).current ≤ (calculateStreak tasks streak now).longest
    ∧ streak.longest ≤ (calculateStreak tasks streak now).longest
    ∧ ∀ steps : List (List Task × Int), streak.longest ≤ (recomputeSeq steps streak).longest := by
  refine ⟨rfl, le_max_right _ _, le_max_left _ _, ?_⟩
  intro steps
  induction steps generalizing streak with
  | nil => exact le_refl _
  | cons p steps ih =>
      calc streak.longest ≤ (calculateStreak p.1 streak p.2).longest :=
            longest_le_calculateStreak _ _ _
        _ ≤ (recomputeSeq steps (calculateStreak p.1 streak p.2)).longest := ih _
        _ = (recomputeSeq (p :: steps) streak).longest := rfl

/-- C4: on every recompute, today's calendar day is a member of the stored
qualifying-day list iff at least one task is due today and every task due
today is completed; membership of every other day is untouched. -/
theorem calculateStreak_today_membership (tasks : List Task) (streak : StreakInfo) (now : Int) :
    ((now.fdiv 1440) ∈ (calculateStreak tasks streak now).daysWithAllTasksCompleted ↔
        ((∃ t ∈ tasks, dueOn (now.fdiv 1440) t = true) ∧
          ∀ t ∈ tasks, dueOn (now.fdiv 1440) t = true → t.completed = true))
    ∧ ∀ d : Int, d ≠ now.fdiv 1440 →
        (d ∈ (calculateStreak tasks streak now).daysWithAllTasksCompleted ↔
          d ∈ streak.daysWithAllTasksCompleted) := by
  constructor
  · rw [calculateStreak_days, List.mem_insertionSort, mem_updateTodayBucket_self,
      allDueCompletedOn_iff]
  · intro d hd
    rw [calculateStreak_days, List.mem_insertionSort, mem_updateTodayBucket_ne _ _ _ _ hd]

/-- C4 witness: the frame part of `calculateStreak_today_membership`
instantiated at a concrete day distinct from today. -/
theorem calculateStreak_today_membership_witness :
    (1 ∈ (calculateStreak [] initialStreak 0).daysWithAllTasksCompleted ↔
      1 ∈ initialStreak.daysWithAllTasksCompleted) :=
  (calculateStreak_today_membership [] initialStreak 0).2 1 (by decide)

/-! ## Store commands (`todoReducer` and the dispatch helpers) -/

/-- `Omit<Task, 'id' | 'createdAt' | 'updatedAt'>`: the data handed to the
create command. -/
structure TaskDraft where
  title : String
  description : String
  completed : Bool
  priority : Priority
  dueDate : Option Int
deriving DecidableEq, Repr

/-- `Partial<Task>`: every field optional, `none` meaning absent from the
updates object. -/
structure TaskUpdates where
  id : Option String
  title : Option String
  description : Option String
  completed : Option Bool
  priority : Option Priority
  dueDate : Option (Option Int)
  createdAt : Option Int
  updatedAt : Option Int
deriving DecidableEq, Repr

/-- The spread `{ ...task, ...updates, updatedAt: new Date() }`: every
field present in `updates` overwrites the task's field (including `id`
when supplied), and `updatedAt` is then overwritten with the clock. -/
def applySpread (t : Task) (u : TaskUpdates) (now : Int) : Task :=
  { id := u.id.getD t.id
    title := u.title.getD t.title
    description := u.description.getD t.description
    completed := u.completed.getD t.completed
    priority := u.priority.getD t.priority
    dueDate := u.dueDate.getD t.dueDate
    createdAt := u.createdAt.getD t.createdAt
    updatedAt := now }

/-- `addTask`: build the new task from the draft, a fresh identifier and
the clock, then `ADD_TASK` appends it.  No validation happens here. -/
def addTask (s : TodoState) (d : TaskDraft) (newId : String) (now : Int) : TodoState :=
  let newTask : Task :=
    { id := newId
      title := d.title
      description := d.description
      completed := d.completed
      priority := d.priority
      dueDate := d.dueDate
      createdAt := now
      updatedAt := now }
  { s with tasks := s.tasks ++ [newTask] }

/-- `UPDATE_TASK`: map over the list, applying the spread to tasks whose
identifier matches. -/
def updateTask (s : TodoState) (id : String) (u : TaskUpdates) (now : Int) : TodoState :=
  { s with tasks := s.tasks.map (fun t => if t.id = id then applySpread t u now else t) }

/-- `DELETE_TASK`: keep the tasks whose identifier differs. -/
def deleteTask (s : TodoState) (id : String) : TodoState :=
  { s with tasks := s.tasks.filter (fun t => t.id != id) }

/-- The per-task effect of `TOGGLE_TASK`. -/
def toggleOne (id : String) (now : Int) (t : Task) : Task :=
  if t.id = id then { t with completed := !t.completed, updatedAt := now } else t

/-- `TOGGLE_TASK`: map over the list, negating `completed` and refreshing
`updatedAt` on tasks whose identifier matches. -/
def toggleTask (s : TodoState) (id : String) (now : Int) : TodoState :=
  { s with tasks := s.tasks.map (toggleOne id now) }

/-- `Partial<AppSettings>`: top-level fields optional; a `notifications`
sub-record, when present, is taken whole. -/
structure PartialAppSettings where
  notifications : Option NotificationSettings
  theme : Option String
  language : Option String
deriving DecidableEq, Repr

/-- `UPDATE_SETTINGS`: the shallow merge `{ ...state.settings, ...payload }`
replaces exactly the top-level fields present in the payload. -/
def updateSettings (s : TodoState) (p : PartialAppSettings) : TodoState :=
  { s with settings :=
    { notifications := p.notifications.getD s.settings.notifications
      theme := p.theme.getD s.settings.theme
      language := p.language.getD s.settings.language } }

/-! ## Form validation and submission (`TaskForm.tsx`) -/

/-- The form's field state.  In the source the due date and time are
strings, the empty string meaning "not filled in"; they are modelled as an
optional calendar day and an optional minute-of-day. -/
structure TaskFormData where
  title : String
  description : String
  priority : Priority
  dueDate : Option Int
  dueTime : Option Int
deriving DecidableEq, Repr

/-- The `errors` object produced by `validateForm`. -/
structure FormErrors where
  title : Option String
  dueDate : Option String
deriving DecidableEq, Repr

/-- `validateForm`: an empty (whitespace-only) title is an error; a due
date combined with a due time that is earlier than now is an error. -/
def validateForm (fd : TaskFormData) (now : Int) : FormErrors :=
  { title := if fd.title.trim = "" then some "Title is required" else none
    dueDate :=
      match fd.dueDate, fd.dueTime with
      | some d, some tm =>
          if d * 1440 + tm < now then some "Due date cannot be in the past" else none
      | _, _ => none }

/-- `Object.keys(newErrors).length === 0` negated: some error is present. -/
def hasErrors (e : FormErrors) : Bool :=
  e.title.isSome || e.dueDate.isSome

/-- The due date-time the submit handler builds: date and time combined
when both are given, end of day (`T23:59`) when only a date is given,
absent otherwise. -/
def combineDue (fd : TaskFormData) : Option Int :=
  match fd.dueDate, fd.dueTime with
  | some d, some tm => some (d * 1440 + tm)
  | some d, none => some (d * 1440 + (23 * 60 + 59))
  | none, _ => none

/-- The `taskData` object the submit handler passes to the store. -/
def buildTaskData (fd : TaskFormData) (existing : Option Task) : TaskDraft :=
  { title := fd.title.trim
    description := fd.description.trim
    priority := fd.priority
    dueDate := combineDue fd
    completed := (existing.map (fun t => t.completed)).getD false }

/-- `taskData` viewed as the `Partial<Task>` handed to the update command
in the edit branch. -/
def taskDataAsUpdates (d : TaskDraft) : TaskUpdates :=
  { id := none
    title := some d.title
    description := some d.description
    completed := some d.completed
    priority := some d.priority
    dueDate := some d.dueDate
    createdAt := none
    updatedAt := none }

/-- `handleSubmit`: abort (no dispatch, hence no state change) when
validation fails, otherwise issue the update command for an existing task
or the create command for a new one. -/
def handleSubmit (s : TodoState) (fd : TaskFormData) (existing : Option Task)
    (newId : String) (now : Int) : Option TodoState :=
  if hasErrors (validateForm fd now) then none
  else some (match existing with
    | some t => updateTask s t.id (taskDataAsUpdates (buildTaskData fd existing)) now
    | none => addTask s (buildTaskData fd existing) newId now)

/-! ## Concrete fixtures shared by the command theorems -/

def exTask : Task :=
  { id := "a"
    title := "t"
    description := ""
    completed := false
    priority := Priority.medium
    dueDate := none
    createdAt := 0
    updatedAt := 0 }

def exState : TodoState :=
  { initialState with tasks := [exTask] }

/-! ## Claim theorems about the commands -/

def emptyTitleDraft : TaskDraft :=
  { title := ""
    description := ""
    completed := false
    priority := Priority.medium
    dueDate := none }

/-- C2 counterexample: the store-level create command performs no
validation, so a draft with an empty title is committed: the task list
grows from empty to one element rather than the command failing with the
state unchanged. -/
theorem addTask_empty_title_commits_cex :
    (addTask initialState emptyTitleDraft "task-1" 0).tasks.length = 1
    ∧ initialState.tasks.length = 0
    ∧ emptyTitleDraft.title = "" := by
  refine ⟨?_, ?_, ?_⟩ <;> decide

/-- C2 amended: empty-title validation lives in the form-submission path,
not in the store.  Whenever the trimmed title is empty, `validateForm`
reports the title error and `handleSubmit` aborts before issuing either
the create or the update command, so no state change and no snapshot
occur. -/
theorem handleSubmit_empty_title_rejected (s : TodoState) (fd : TaskFormData)
    (existing : Option Task) (newId : String) (now : Int) (h : fd.title.trim = "") :
    (validateForm fd now).title = some "Title is required"
    ∧ handleSubmit s fd existing newId now = none := by
  constructor
  · simp [validateForm, h]
  · simp [handleSubmit, hasErrors, validateForm, h]

def emptyTitleForm : TaskFormData :=
  { title := ""
    description := ""
    priority := Priority.medium
    dueDate := none
    dueTime := none }

lemma takeWhileAux_stop (s : String) (stopPos : String.Pos) (p : Char → Bool) (i : String.Pos)
    (h : ¬ i < stopPos) : Substring.takeWhileAux s stopPos p i = i := by
  unfold Substring.takeWhileAux
  simp [h]

lemma takeRightWhileAux_stop (s : String) (begPos : String.Pos) (p : Char → Bool) (i : String.Pos)
    (h : ¬ begPos < i) : Substring.takeRightWhileAux s begPos p i = i := by
  unfold Substring.takeRightWhileAux
  simp [h]

lemma trim_empty : ("" : String).trim = "" := by
  have h1 : Substring.takeWhileAux "" 0 Char.isWhitespace 0 = 0 :=
    takeWhileAux_stop _ _ _ _ (by decide)
  have h2 : Substring.takeRightWhileAux "" 0 Char.isWhitespace 0 = 0 :=
    takeRightWhileAux_stop _ _ _ _ (by decide)
  show (("" : String).toSubstring.trim).toString = ""
  simp [Substring.trim, String.toSubstring, h1, h2]
  rfl

/-- C2 witness: the empty-title rejection at a concrete form state. -/
theorem handleSubmit_empty_title_rejected_witness :
    (validateForm emptyTitleForm 0).title = some "Title is required"
    ∧ handleSubmit initialState emptyTitleForm none "task-1" 0 = none :=
  handleSubmit_empty_title_rejected initialState emptyTitleForm none "task-1" 0 trim_empty

lemma toggleOne_toggleOne_completed (id : String) (t₁ t₂ : Int) (t : Task) :
    (toggleOne id t₂ (toggleOne id t₁ t)).completed = t.completed := by
  unfold toggleOne
  by_cases h : t.id = id <;> simp [h]

lemma map_toggle_twice_completed (id : String) (t₁ t₂ : Int) :
    ∀ l : List Task,
      ((l.map (toggleOne id t₁)).map (toggleOne id t₂)).map (fun t => t.completed)
        = l.map (fun t => t.completed) := by
  intro l
  induction l with
  | nil => rfl
  | cons a l ih => simp [ih, toggleOne_toggleOne_completed]

/-- C6: toggling completion twice restores every task's `completed` flag,
and a single toggle of a matching task negates its flag and sets its
`updatedAt` to the toggle's clock reading, which is strictly greater than
the previous value whenever the clock has advanced past it. -/
theorem toggleTask_involution_updatedAt (s : TodoState) (id : String) (t₁ t₂ : Int) :
    ((toggleTask (toggleTask s id t₁) id t₂).tasks.map (fun t => t.completed)
        = s.tasks.map (fun t => t.completed))
    ∧ ∀ t : Task, t.id = id → t.updatedAt < t₁ →
        ((toggleOne id t₁ t).completed = !t.completed
          ∧ t.updatedAt < (toggleOne id t₁ t).updatedAt) := by
  constructor
  · exact map_toggle_twice_completed id t₁ t₂ s.tasks
  · intro t hid hlt
    unfold toggleOne
    rw [if_pos hid]
    exact ⟨rfl, hlt⟩

/-- C6 witness: the double toggle and the strict timestamp increase at a
concrete state and clock readings. -/
theorem toggleTask_involution_updatedAt_witness :
    ((toggleTask (toggleTask exState "a" 5) "a" 9).tasks.map (fun t => t.completed)
        = exState.tasks.map (fun t => t.completed))
    ∧ (toggleOne "a" 5 exTask).completed = !exTask.completed
    ∧ exTask.updatedAt < (toggleOne "a" 5 exTask).updatedAt := by
  have h := toggleTask_involution_updatedAt exState "a" 5 9
  exact ⟨h.1, (h.2 exTask rfl (by decide)).1, (h.2 exTask rfl (by decide)).2⟩

/-- C7: deleting an identifier that no task carries leaves the whole state
unchanged (the filter keeps every task), and deleting the same identifier
twice equals deleting it once. -/
theorem deleteTask_missing_noop_idempotent (s : TodoState) (id : String) :
    ((∀ t ∈ s.tasks, t.id ≠ id) → deleteTask s id = s)
    ∧ deleteTask (deleteTask s id) id = deleteTask s id := by
  constructor
  · intro h
    have hf : s.tasks.filter (fun t => t.id != id) = s.tasks :=
      List.filter_eq_self.mpr (fun a ha => by simpa [bne_iff_ne] using h a ha)
    unfold deleteTask
    rw [hf]
  · unfold deleteTask
    simp [List.filter_filter]

/-- C7 witness: the no-op delete and its idempotence at a concrete state
and an identifier absent from it. -/
theorem deleteTask_missing_noop_idempotent_witness :
    deleteTask exState "zzz" = exState
    ∧ deleteTask (deleteTask exState "zzz") "zzz" = deleteTask exState "zzz" := by
  have h := deleteTask_missing_noop_idempotent exState "zzz"
  exact ⟨h.1 (by decide), h.2⟩

def idOverwrite : TaskUpdates :=
  { id := some "b"
    title := none
    description := none
    completed := none
    priority := none
    dueDate := none
    createdAt := none
    updatedAt := none }

/-- C8 counterexample: the update spread copies every supplied field over
the task, including `id`, so an updates object that carries an `id`
rewrites the task's identifier from `"a"` to `"b"`. -/
theorem updateTask_id_overwrite_cex :
    ((updateTask exState "a" idOverwrite 5).tasks.map (fun t => t.id)) = ["b"]
    ∧ exState.tasks.map (fun t => t.id) = ["a"] := by
  constructor <;> decide

lemma map_id_update (id : String) (u : TaskUpdates) (now : Int) (h : u.id = none) :
    ∀ l : List Task,
      (l.map (fun t => if t.id = id then applySpread t u now else t)).map (fun t => t.id)
        = l.map (fun t => t.id) := by
  intro l
  induction l with
  | nil => rfl
  | cons a l ih =>
      simp only [List.map_cons, ih, List.cons.injEq, and_true]
      by_cases ha : a.id = id
      · simp [ha, applySpread, h]
      · simp [ha]

/-- C8 amended: the task identifier survives every update whose
partial-fields argument does not itself supply an `id` (as is the case for
every updates object the repository constructs). -/
theorem updateTask_preserves_id_of_not_supplied (s : TodoState) (id : String)
    (u : TaskUpdates) (now : Int) (h : u.id = none) :
    (updateTask s id u now).tasks.map (fun t => t.id) = s.tasks.map (fun t => t.id) :=
  map_id_update id u now h s.tasks

def noneIdUpdates : TaskUpdates :=
  { id := none
    title := some "renamed"
    description := none
    completed := none
    priority := none
    dueDate := none
    createdAt := none
    updatedAt := none }

/-- C8 witness: identifier preservation at a concrete state and an updates
object without an `id` field. -/
theorem updateTask_preserves_id_witness :
    (updateTask exState "a" noneIdUpdates 5).tasks.map (fun t => t.id)
      = exState.tasks.map (fun t => t.id) :=
  updateTask_preserves_id_of_not_supplied exState "a" noneIdUpdates 5 rfl

/-- C10: the settings merge is shallow.  A payload carrying a
`notifications` sub-record replaces the stored record by it exactly (so
nested fields the payload leaves out are erased, not preserved), while
top-level fields absent from the payload keep their previous values. -/
theorem updateSettings_shallow_merge (s : TodoState) (p : PartialAppSettings)
    (n : NotificationSettings) (h : p.notifications = some n) :
    (updateSettings s p).settings.notifications = n
    ∧ (p.theme = none → (updateSettings s p).settings.theme = s.settings.theme)
    ∧ (p.language = none → (updateSettings s p).settings.language = s.settings.language) := by
  refine ⟨?_, ?_, ?_⟩
  · simp [updateSettings, h]
  · intro ht
    simp [updateSettings, ht]
  · intro hl
    simp [updateSettings, hl]

def partialNotifOnly : PartialAppSettings :=
  { notifications := some { enabled := some false, soundEnabled := none, reminderTime := none }
    theme := none
    language := none }

/-- C10 witness: starting from the defaults (where sound is enabled), a
payload whose notifications sub-record omits `soundEnabled` erases it,
while the omitted top-level `theme` is preserved. -/
theorem updateSettings_shallow_merge_witness :
    (updateSettings initialState partialNotifOnly).settings.notifications.soundEnabled = none
    ∧ (updateSettings initialState partialNotifOnly).settings.theme
        = initialState.settings.theme := by
  have h := updateSettings_shallow_merge initialState partialNotifOnly
    { enabled := some false, soundEnabled := none, reminderTime := none } rfl
  exact ⟨by rw [h.1], h.2.1 rfl⟩

/-! ## Reminder scheduling (`useNotifications.ts`)

The timer table (`notificationTimeouts`) is modelled as an association
list from task id to the minute at which the armed timer fires; only
armed timers are recorded (`clearTimeout` removes, `setTimeout` inserts).
-/

/-- `scheduleNotification`: bail out when the task has no due date or
notifications are not enabled (JS truthiness: an absent or `false`
`enabled` flag both fail the guard); otherwise cancel any existing timer
for this task id, compute the reminder instant `dueDate - reminderTime`,
and arm a timer at it iff it is strictly in the future.  An absent
`reminderTime` yields an invalid date in the source, whose `isBefore`
comparison is false, so nothing is armed. -/
def scheduleNotification (timers : List (String × Int)) (settings : AppSettings)
    (now : Int) (t : Task) : List (String × Int) :=
  match t.dueDate with
  | none => timers
  | some due =>
    if settings.notifications.enabled ≠ some true then timers
    else
      let cleared := timers.filter (fun p => p.1 != t.id)
      match settings.notifications.reminderTime with
      | some lead =>
          let reminderAt := due - lead
          if now < reminderAt then cleared ++ [(t.id, reminderAt)] else cleared
      | none => cleared

/-- The scheduling effect: schedule every incomplete task that has a due
date. -/
def resyncNotifications (timers : List (String × Int)) (settings : AppSettings)
    (now : Int) (tasks : List Task) : List (String × Int) :=
  (tasks.filter (fun t => !t.completed && t.dueDate.isSome)).foldl
    (fun tm t => scheduleNotification tm settings now t) timers

lemma lookup_filter_ne_self (k : String) :
    ∀ l : List (String × Int), ((l.filter (fun p => p.1 != k)).lookup k) = none := by
  intro l
  induction l with
  | nil => rfl
  | cons a l ih =>
      by_cases ha : a.1 = k
      · simp [List.filter_cons, ha, ih]
      · have hk : (k == a.1) = false := beq_eq_false_iff_ne.mpr fun h => ha h.symm
        simp [List.filter_cons, ha, List.lookup, hk, ih, bne_iff_ne]

lemma lookup_append_of_none (k : String) (l₁ l₂ : List (String × Int))
    (h : l₁.lookup k = none) : ((l₁ ++ l₂).lookup k) = l₂.lookup k := by
  induction l₁ with
  | nil => rfl
  | cons a l ih =>
      rcases a with ⟨a1, a2⟩
      by_cases ha : k = a1
      · have hk : (k == a1) = true := beq_iff_eq.mpr ha
        rw [List.lookup_cons, hk] at h
        exact absurd h (by simp)
      · have hk : (k == a1) = false := beq_eq_false_iff_ne.mpr ha
        rw [List.lookup_cons, hk] at h
        rw [List.cons_append, List.lookup_cons, hk]
        exact ih h

/-- C5: for a task with a due date, notifications enabled and a reminder
lead configured, the reminder instant is `dueDate - lead` and after
scheduling the timer table holds a timer for the task's id exactly when
that instant is strictly later than now, firing at that instant; and on an
incomplete such task the full resync pass acts exactly by this
scheduling. -/
theorem scheduleNotification_fire_spec (timers : List (String × Int))
    (settings : AppSettings) (now : Int) (t : Task) (due lead : Int)
    (hd : t.dueDate = some due)
    (he : settings.notifications.enabled = some true)
    (hl : settings.notifications.reminderTime = some lead) :
    ((scheduleNotification timers settings now t).lookup t.id
        = if now < due - lead then some (due - lead) else none)
    ∧ (t.completed = false →
        resyncNotifications timers settings now [t]
          = scheduleNotification timers settings now t) := by
  constructor
  · unfold scheduleNotification
    simp only [hd, he, hl, ne_eq, not_true_eq_false, if_false, reduceCtorEq]
    by_cases hnow : now < due - lead
    · rw [if_pos hnow, if_pos hnow,
        lookup_append_of_none _ _ _ (lookup_filter_ne_self t.id timers)]
      simp [List.lookup]
    · rw [if_neg hnow, if_neg hnow, lookup_filter_ne_self]
  · intro hc
    unfold resyncNotifications
    simp [hc, hd]

def exDueTask20 : Task :=
  { id := "n1"
    title := "due in 20"
    description := ""
    completed := false
    priority := Priority.high
    dueDate := some 20
    createdAt := 0
    updatedAt := 0 }

def exDueTask10 : Task :=
  { exDueTask20 with id := "n2", dueDate := some 10 }

/-- C5 witness: with the default 15-minute lead and now = 0, a task due at
minute 20 gets a timer firing at minute 5, and a task due at minute 10
gets no timer. -/
theorem scheduleNotification_fire_spec_witness :
    ((scheduleNotification [] initialSettings 0 exDueTask20).lookup exDueTask20.id = some 5)
    ∧ ((scheduleNotification [] initialSettings 0 exDueTask10).lookup exDueTask10.id = none) := by
  have h1 := (scheduleNotification_fire_spec [] initialSettings 0 exDueTask20 20 15
    rfl rfl rfl).1
  have h2 := (scheduleNotification_fire_spec [] initialSettings 0 exDueTask10 10 15
    rfl rfl rfl).1
  constructor
  · rw [h1]
    norm_num
  · rw [h2]
    norm_num

/-! ## Stats engine (`calculateStats` in `TodoContext.tsx`) -/

/-- Assignment to a JS object key, seen through the object's
key-to-value mapping. -/
def objSet (m : Int → Option Nat) (k : Int) (v : Nat) : Int → Option Nat :=
  fun q => if q = k then some v else m q

def createdDay (t : Task) : Int := t.createdAt.fdiv 1440

/-- One iteration of the `forEach` in `calculateStats`: ensure the
creation-day bucket exists (defaulting it to 0), then increment it when
the task is completed. -/
def dailyStep (m : Int → Option Nat) (t : Task) : Int → Option Nat :=
  let key := createdDay t
  let m1 := match m key with
    | none => objSet m key 0
    | some _ => m
  if t.completed then objSet m1 key ((m1 key).getD 0 + 1) else m1

/-- `calculateStats`: total and completed counts, the per-creation-day
buckets, a copy of the streak counters, and a weekly map that the source
never populates. -/
def calculateStats (tasks : List Task) (streak : StreakInfo) : UserStats :=
  { totalTasks := tasks.length
    completedTasks := (tasks.filter (fun t => t.completed)).length
    currentStreak := streak.current
    longestStreak := streak.longest
    dailyCompletion := tasks.foldl dailyStep emptyObj
    weeklyCompletion := emptyObj }

lemma dailyStep_apply (m : Int → Option Nat) (t : Task) (d : Int) :
    dailyStep m t d = if d = createdDay t
      then some ((m (createdDay t)).getD 0 + (if t.completed then 1 else 0))
      else m d := by
  unfold dailyStep objSet
  by_cases hd : d = createdDay t <;> by_cases hc : t.completed <;>
    cases hm : m (createdDay t) <;> simp [hd, hc, hm]

lemma foldl_dailyStep (d : Int) : ∀ (ts : List Task) (m : Int → Option Nat),
    (ts.foldl dailyStep m) d =
      if (m d).isSome ∨ ∃ t ∈ ts, createdDay t = d
      then some ((m d).getD 0 + ts.countP (fun t => t.completed && (createdDay t == d)))
      else none := by
  intro ts
  induction ts with
  | nil =>
      intro m
      cases hm : m d <;> simp [hm]
  | cons a ts ih =>
      intro m
      rw [List.foldl_cons, ih (dailyStep m a), List.countP_cons]
      by_cases hd : d = createdDay a
      · subst hd
        rw [dailyStep_apply]
        simp only [if_pos rfl, Option.isSome_some, true_or, if_true, Option.getD_some,
          beq_self_eq_true, Bool.and_true]
        rw [if_pos (Or.inr ⟨a, List.mem_cons_self a ts, rfl⟩)]
        cases hc : a.completed <;> (simp; try omega)
      · rw [dailyStep_apply, if_neg hd]
        have hpa : (a.completed && (createdDay a == d)) = false := by
          have : (createdDay a == d) = false := by
            simp [beq_iff_eq]
            exact fun h => hd h.symm
          simp [this]
        rw [hpa]
        have hcond : ((m d).isSome ∨ ∃ t ∈ a :: ts, createdDay t = d)
            ↔ ((m d).isSome ∨ ∃ t ∈ ts, createdDay t = d) := by
          constructor
          · rintro (h | ⟨t, ht, htd⟩)
            · exact Or.inl h
            · rcases List.mem_cons.mp ht with rfl | htt
              · exact absurd htd.symm hd
              · exact Or.inr ⟨t, htt, htd⟩
          · rintro (h | ⟨t, ht, htd⟩)
            · exact Or.inl h
            · exact Or.inr ⟨t, List.mem_cons_of_mem a ht, htd⟩
        rw [if_congr hcond rfl rfl]
        simp

/-- C9 counterexample: two tasks created on day 0, one of them completed.
The recomputed per-day bucket for day 0 holds 1 — the number of completed
tasks created that day — not the number of tasks created that day (2), and
the per-week map is empty even though a completion exists. -/
def cexTask1 : Task :=
  { id := "c1"
    title := "x"
    description := ""
    completed := false
    priority := Priority.low
    dueDate := none
    createdAt := 0
    updatedAt := 0 }

def cexTask2 : Task :=
  { cexTask1 with id := "c2", completed := true }

theorem calculateStats_daily_weekly_cex :
    (calculateStats [cexTask1, cexTask2] initialStreak).dailyCompletion 0 = some 1
    ∧ ([cexTask1, cexTask2].filter (fun t => createdDay t == 0)).length = 2
    ∧ (calculateStats [cexTask1, cexTask2] initialStreak).weeklyCompletion 0 = none := by
  refine ⟨?_, ?_, ?_⟩ <;> decide

/-- C9 amended: after a recompute, `totalTasks` is the number of tasks,
`completedTasks` the number of completed tasks, the per-day map sends each
calendar day on which at least one task was created to the number of
completed tasks created that day (and is absent elsewhere), and the
per-week map is always empty. -/
theorem calculateStats_characterization (tasks : List Task) (streak : StreakInfo) (d : Int) :
    (calculateStats tasks streak).totalTasks = tasks.length
    ∧ (calculateStats tasks streak).completedTasks = tasks.countP (fun t => t.completed)
    ∧ ((calculateStats tasks streak).dailyCompletion d =
        if ∃ t ∈ tasks, createdDay t = d
        then some (tasks.countP (fun t => t.completed && (createdDay t == d)))
        else none)
    ∧ (calculateStats tasks streak).weeklyCompletion d = none := by
  refine ⟨rfl, (List.countP_eq_length_filter _ _).symm, ?_, rfl⟩
  show (tasks.foldl dailyStep emptyObj) d = _
  rw [foldl_dailyStep d tasks emptyObj]
  simp [emptyObj]

end TodoApp
